import Mathlib

/-!
Verification of the uplink-server core against its specification.

The Go sources are shallowly embedded: Go maps (string-keyed) become
association lists over String, processed in iteration order; scalar JSON
values are abstracted as opaque strings (only the map/non-map distinction
matters to the merge logic); stateful methods become pure functions from
the receiver value to the updated receiver value.
-/

set_option autoImplicit false

/-! ## Association-list primitives (the embedding of Go string-keyed maps) -/
/-- Lookup of a key in an association list, mirroring a Go map read. -/
def lookupA {α : Type} : List (String × α) → String → Option α
  | [], _ => none
  | (k, v) :: rest, key => if k = key then some v else lookupA rest key

/-- Insertion mirroring a Go map assignment: replace the value in place when
the key is present, otherwise append the new binding. -/
def insertA {α : Type} : List (String × α) → String → α → List (String × α)
  | [], key, v => [(key, v)]
  | (k, w) :: rest, key, v =>
    if k = key then (key, v) :: rest else (k, w) :: insertA rest key v

/-- Deletion mirroring the Go builtin delete on maps. -/
def eraseA {α : Type} : List (String × α) → String → List (String × α)
  | [], _ => []
  | (k, w) :: rest, key => if k = key then rest else (k, w) :: eraseA rest key

/-! ## JSON-like values

A Go value of type map-of-string-to-any is embedded as Value.vmap over an
association list; every non-map value (string, number, boolean, null) is
abstracted as Value.prim carrying an opaque rendering, because the code
under verification only ever branches on whether a value is a map. -/
inductive Value where
  | prim (s : String)
  | vmap (entries : List (String × Value))

/-- Nested state map: the top level of a peer state. -/
abbrev StateMap := List (String × Value)

/-! ## State store (storage/state.go)

StateStore.states is the map from scooter id to its ScooterState; only the
State field matters to the merge claims, so the store is embedded as an
association list from id to StateMap. UpdateState and UpdateChanges create
the entry when absent, exactly as the Go code does. -/
abbrev StateStoreM := List (String × StateMap)

/-- Embedding of StateStore.UpdateState: the entry is created when absent and
its State field is then replaced wholesale by the incoming data. -/
def updateState (ss : StateStoreM) (scooterID : String) (stateData : StateMap) : StateStoreM :=
  insertA ss scooterID stateData

/-- Embedding of the loop body of StateStore.UpdateChanges for one incoming
binding: when the incoming value and the stored value at the key are both
maps, each incoming field is assigned into the stored map (the Go code
mutates the shared inner map in place, which is observationally the same as
re-binding the key to the updated map); otherwise the incoming value is
assigned at the key. -/
def applyChangeEntry (st : StateMap) (key : String) (value : Value) : StateMap :=
  match value with
  | .vmap valueMap =>
    match lookupA st key with
    | some (.vmap existing) =>
      insertA st key (.vmap (valueMap.foldl (fun e kv => insertA e kv.1 kv.2) existing))
    | _ => insertA st key (.vmap valueMap)
  | _ => insertA st key value

/-- Embedding of StateStore.UpdateChanges: the entry is created (with an
empty State) when absent, then every incoming top-level binding is applied
in iteration order. -/
def updateChanges (ss : StateStoreM) (scooterID : String) (changes : StateMap) : StateStoreM :=
  let cur := (lookupA ss scooterID).getD []
  insertA ss scooterID (changes.foldl (fun s kv => applyChangeEntry s kv.1 kv.2) cur)

/-- Embedding of StateStore.GetState restricted to the State field: a lookup
in the states map. -/
def getStateMap (ss : StateStoreM) (scooterID : String) : Option StateMap :=
  lookupA ss scooterID

/-! ### The documented merge rules (spec side, for the refinement claim)

These definitions follow the wording of the specification, not the code:
update_full replaces the stored nested map wholesale; update_delta visits
each top-level key and, if both stored and incoming are maps, assigns each
of the incoming fields into the stored map, otherwise assigns the incoming
value into the stored key. -/
def spec_update_full (_stored incoming : StateMap) : StateMap := incoming

def spec_update_delta (stored : StateMap) (incoming : StateMap) : StateMap :=
  incoming.foldl
    (fun s kv =>
      match lookupA s kv.1, kv.2 with
      | some (.vmap ex), .vmap vm =>
        insertA s kv.1 (.vmap (vm.foldl (fun e p => insertA e p.1 p.2) ex))
      | _, _ => insertA s kv.1 kv.2)
    stored

/-- One frame of telemetry addressed to a peer: a full state snapshot or a
delta of changes. -/
inductive UpdateMsg where
  | full (data : StateMap)
  | delta (changes : StateMap)

/-- A sequence of state and change frames from several peers, replayed
through the code embedding. -/
def replayStore (ss : StateStoreM) : List (String × UpdateMsg) → StateStoreM
  | [] => ss
  | (id, .full data) :: rest => replayStore (updateState ss id data) rest
  | (id, .delta changes) :: rest => replayStore (updateChanges ss id changes) rest

/-- Replay of one peer's frames through the documented merge rules. -/
def specReplay (st : StateMap) : List UpdateMsg → StateMap
  | [] => st
  | .full data :: rest => specReplay (spec_update_full st data) rest
  | .delta changes :: rest => specReplay (spec_update_delta st changes) rest

/-- The frames of the sequence addressed to one peer. -/
def framesFor (p : String) (ops : List (String × UpdateMsg)) : List UpdateMsg :=
  ops.filterMap (fun op => if op.1 = p then some op.2 else none)

/-! ## Timestamps and Go reference-layout formatting (time.Time.Format)

A wall-clock instant is embedded by its broken-down components. The two
layouts the code uses are embedded per the Go formatting rules: in the
layout string, 2006 renders the four-digit year, 01 the two-digit month, 02
the day, 15 the hour, 04 the minute, 05 the second, and a fractional-second
pattern is recognized only immediately after a dot or comma following the
seconds; any other run of characters is copied to the output verbatim. -/
structure DateTime where
  year : Nat
  month : Nat
  day : Nat
  hour : Nat
  minute : Nat
  second : Nat
  nanos : Nat
deriving DecidableEq

def digitChar (n : Nat) : Char := Char.ofNat (48 + n % 10)

def pad2 (n : Nat) : String := ⟨[digitChar (n / 10), digitChar n]⟩

def pad4 (n : Nat) : String :=
  ⟨[digitChar (n / 1000), digitChar (n / 100), digitChar (n / 10), digitChar n]⟩

def pad6 (n : Nat) : String :=
  ⟨[digitChar (n / 100000), digitChar (n / 10000), digitChar (n / 1000),
    digitChar (n / 100), digitChar (n / 10), digitChar n]⟩

def pad9 (n : Nat) : String :=
  ⟨[digitChar (n / 100000000), digitChar (n / 10000000), digitChar (n / 1000000),
    digitChar (n / 100000), digitChar (n / 10000), digitChar (n / 1000),
    digitChar (n / 100), digitChar (n / 10), digitChar n]⟩

/-- Rendering of Format with layout 20060102150405: year, month, day, hour,
minute, second, each zero-padded to fixed width. -/
def goFormatDateTime (t : DateTime) : String :=
  pad4 t.year ++ pad2 t.month ++ pad2 t.day ++ pad2 t.hour ++ pad2 t.minute ++ pad2 t.second

/-- Rendering of Format with layout 000000000. The layout contains no
recognized reference pattern: the patterns starting with the zero digit are
01 through 06 and 002 only, and fractional seconds are recognized only
right after a dot or comma. Every character of this layout is therefore
copied verbatim, so the result is the constant string of nine zero digits,
independent of the time value. -/
def goFormatNineZeros (_t : DateTime) : String := "000000000"

/-- Embedding of the event-id expression in EventStore.AddEvent:
timestamp.Format(20060102150405) + "-" + timestamp.Format(000000000). -/
def eventID (timestamp : DateTime) : String :=
  goFormatDateTime timestamp ++ "-" ++ goFormatNineZeros timestamp

/-- The id the claim describes: the concatenation of the timestamp formatted
as YYYYMMDDhhmmss and the nine-digit subsecond (nanosecond) tail. This
definition follows the wording of the claim, for comparison with eventID. -/
def claimedEventID (timestamp : DateTime) : String :=
  goFormatDateTime timestamp ++ pad9 timestamp.nanos

/-- Embedding of the request-id expression in generateRequestID:
time.Now().Format(20060102-150405.000000); the dash and the dot are layout
literals and .000000 renders the microseconds. -/
def generateRequestID (now : DateTime) : String :=
  pad4 now.year ++ pad2 now.month ++ pad2 now.day ++ "-" ++
    pad2 now.hour ++ pad2 now.minute ++ pad2 now.second ++ "." ++ pad6 (now.nanos / 1000)

/-! ## Event store (storage/event.go) -/
/-- Embedding of the Event record built by EventStore.AddEvent. -/
structure EventM where
  id : String
  scooterID : String
  event : String
  data : Option StateMap
  timestamp : DateTime

/-- Per-scooter event lists, newest first; the embedding of
EventStore.events. -/
abbrev EventStoreM := List (String × List EventM)

/-- Embedding of EventStore.AddEvent: build the event with its timestamp-
derived id, create the per-scooter list when absent, otherwise prepend and
trim to maxPerScooter. -/
def addEvent (maxPerScooter : Nat) (es : EventStoreM) (scooterID eventName : String)
    (data : Option StateMap) (timestamp : DateTime) : EventStoreM :=
  let event : EventM := ⟨eventID timestamp, scooterID, eventName, data, timestamp⟩
  match lookupA es scooterID with
  | none => insertA es scooterID [event]
  | some events =>
    let events := event :: events
    let events := if events.length > maxPerScooter then events.take maxPerScooter else events
    insertA es scooterID events

/-- Embedding of EventStore.GetEvents: most recent first, truncated when a
positive limit smaller than the list length is given. -/
def getEvents (es : EventStoreM) (scooterID : String) (limit : Nat) : List EventM :=
  match lookupA es scooterID with
  | none => []
  | some events =>
    if limit > 0 ∧ limit < events.length then events.take limit else events

/-- One AddEvent call of a replayed sequence. -/
structure AddSpec where
  scooterID : String
  eventName : String
  data : Option StateMap
  timestamp : DateTime

/-- The event record an AddSpec produces. -/
def mkEvent (a : AddSpec) : EventM :=
  ⟨eventID a.timestamp, a.scooterID, a.eventName, a.data, a.timestamp⟩

/-- Replay of a sequence of AddEvent calls from a store state. -/
def replayAdds (maxPerScooter : Nat) (es : EventStoreM) : List AddSpec → EventStoreM
  | [] => es
  | a :: rest =>
    replayAdds maxPerScooter (addEvent maxPerScooter es a.scooterID a.eventName a.data a.timestamp) rest

/-- The calls of a sequence addressed to one peer. -/
def addsFor (p : String) (adds : List AddSpec) : List AddSpec :=
  adds.filter (fun a => a.scooterID = p)

/-- The per-scooter list held by the store, empty when the key is absent. -/
def perPeerEvents (es : EventStoreM) (p : String) : List EventM :=
  (lookupA es p).getD []

/-- A small concrete sequence of AddEvent calls: three appends for s1 and
one for s2, with a per-peer cap of two. -/
def demoAdds : List AddSpec :=
  [⟨"s1", "boot", none, ⟨2025, 1, 1, 12, 0, 0, 0⟩⟩,
   ⟨"s1", "ride", none, ⟨2025, 1, 1, 12, 0, 1, 0⟩⟩,
   ⟨"s2", "boot", none, ⟨2025, 1, 1, 12, 0, 2, 0⟩⟩,
   ⟨"s1", "stop", none, ⟨2025, 1, 1, 12, 0, 3, 0⟩⟩]

/-! ## Auth directory (internal/auth/auth.go) -/
/-- Embedding of models.ScooterConfig. -/
structure ScooterConfig where
  token : String
  name : String
deriving DecidableEq

/-- The two error kinds of Authenticator.Authenticate; each Go error carries
the identifier in its message. -/
inductive AuthError where
  | unknownIdentifier (identifier : String)
  | invalidToken (identifier : String)
deriving DecidableEq

/-- Embedding of Authenticator.Authenticate: the identifier must be present
in the tokens directory and the presented token must equal the stored one. -/
def authenticate (tokens : List (String × ScooterConfig)) (identifier token : String) :
    Except AuthError Unit :=
  match lookupA tokens identifier with
  | none => .error (.unknownIdentifier identifier)
  | some scooterConfig =>
    if token ≠ scooterConfig.token then .error (.invalidToken identifier) else .ok ()

/-! ## Connections (internal/models/connection.go) and command dispatch
(internal/handlers/websocket.go SendCommand)

Counters are int64 in Go and only ever incremented; they are embedded as
Nat. The outbound channel of capacity 256 is embedded as the list of frames
currently queued, a send succeeding exactly when the length is below the
capacity. -/
/-- Embedding of protocol.CommandMessage. -/
structure CommandMessage where
  type_ : String
  requestID : String
  command : String
  params : StateMap
  timestamp : String

/-- A frame sitting in the outbound queue: commands from SendCommand and
keepalives from the keepalive sender. -/
inductive OutboundFrame where
  | command (msg : CommandMessage)
  | keepalive (timestamp : String)

/-- Embedding of models.Connection restricted to the fields the claims
touch. -/
structure ConnM where
  identifier : String
  name : String
  authenticated : Bool
  bytesSent : Nat
  bytesReceived : Nat
  telemetryReceived : Nat
  commandsSent : Nat
  sendChan : List OutboundFrame

/-- The outbound queue capacity fixed by models.NewConnection:
make(chan, 256). -/
def sendChanCapacity : Nat := 256

/-- Embedding of models.NewConnection: fresh counters, empty queue, not yet
authenticated. -/
def newConnection (identifier : String) : ConnM :=
  ⟨identifier, "", false, 0, 0, 0, 0, []⟩

abbrev Registry := List (String × ConnM)

/-- The error values of WebSocketHandler.SendCommand. -/
inductive SendCommandError where
  | connectionNotFound
  | notAuthenticated
  | sendChannelFull
deriving DecidableEq

/-- Embedding of WebSocketHandler.SendCommand: look the peer up in the
registry, fail when absent or not authenticated, build the command frame
with a freshly minted request id, enqueue it when the outbound queue has
room and only then increment commandsSent, otherwise fail with the
channel-full error. The result carries the registry after the call. -/
def sendCommand (connections : Registry) (now : DateTime) (timestampStr identifier command : String)
    (params : StateMap) : Except SendCommandError String × Registry :=
  match lookupA connections identifier with
  | none => (.error .connectionNotFound, connections)
  | some conn =>
    if conn.authenticated = false then (.error .notAuthenticated, connections)
    else
      let cmdMsg : CommandMessage :=
        ⟨"command", generateRequestID now, command, params, timestampStr⟩
      if conn.sendChan.length < sendChanCapacity then
        (.ok cmdMsg.requestID,
          insertA connections identifier
            { conn with
                sendChan := conn.sendChan ++ [.command cmdMsg],
                commandsSent := conn.commandsSent + 1 })
      else (.error .sendChannelFull, connections)

/-- A registry for the witness: one authenticated peer with a full queue and
one authenticated peer with an empty queue. -/
def demoRegistry : Registry :=
  [("full-peer", { newConnection "full-peer" with
      authenticated := true,
      sendChan := List.replicate 256 (.keepalive "t") }),
   ("idle-peer", { newConnection "idle-peer" with authenticated := true })]

/-! ## Connection registry (internal/storage/connections.go)

ConnectionManager holds the live connections plus cumulative lifetime
counters rolled up from removed connections. GetStats reports, for each
counter, the rolled-up total plus the sum over the live sessions. -/
structure ConnMgrM where
  connections : Registry
  totalBytesSent : Nat
  totalBytesReceived : Nat
  totalTelemetry : Nat
  totalCommandsSent : Nat

/-- Embedding of NewConnectionManager. -/
def newConnectionManager : ConnMgrM := ⟨[], 0, 0, 0, 0⟩

/-- Embedding of ConnectionManager.AddConnection: assigns the connection
under its identifier, replacing any present entry; no counters are rolled
up. -/
def addConnection (cm : ConnMgrM) (conn : ConnM) : ConnMgrM :=
  { cm with connections := insertA cm.connections conn.identifier conn }

/-- Embedding of ConnectionManager.RemoveConnection: a no-op when the
identifier is absent; otherwise the byte, telemetry and command counters of
the departing connection are added to the cumulative totals before the
entry is deleted. -/
def removeConnection (cm : ConnMgrM) (identifier : String) : ConnMgrM :=
  match lookupA cm.connections identifier with
  | none => cm
  | some conn =>
    { cm with
        connections := eraseA cm.connections identifier,
        totalBytesSent := cm.totalBytesSent + conn.bytesSent,
        totalBytesReceived := cm.totalBytesReceived + conn.bytesReceived,
        totalTelemetry := cm.totalTelemetry + conn.telemetryReceived,
        totalCommandsSent := cm.totalCommandsSent + conn.commandsSent }

/-- The lifetime totals of the GetStats snapshot: total_bytes_sent,
total_bytes_received, total_telemetry and total_commands. -/
structure StatsTotals where
  bytesSent : Nat
  bytesReceived : Nat
  telemetry : Nat
  commands : Nat
deriving DecidableEq

def statsAdd (a b : StatsTotals) : StatsTotals :=
  ⟨a.bytesSent + b.bytesSent, a.bytesReceived + b.bytesReceived,
   a.telemetry + b.telemetry, a.commands + b.commands⟩

/-- Componentwise comparison of two totals snapshots. -/
def statsLE (a b : StatsTotals) : Prop :=
  a.bytesSent ≤ b.bytesSent ∧ a.bytesReceived ≤ b.bytesReceived
    ∧ a.telemetry ≤ b.telemetry ∧ a.commands ≤ b.commands

def sumBy (conns : Registry) (f : ConnM → Nat) : Nat :=
  (conns.map (fun kv => f kv.2)).sum

/-- Embedding of the lifetime counters computed by
ConnectionManager.GetStats: the saved totals plus the sums over the live
sessions. -/
def getStatsTotals (cm : ConnMgrM) : StatsTotals :=
  ⟨cm.totalBytesSent + sumBy cm.connections (fun c => c.bytesSent),
   cm.totalBytesReceived + sumBy cm.connections (fun c => c.bytesReceived),
   cm.totalTelemetry + sumBy cm.connections (fun c => c.telemetryReceived),
   cm.totalCommandsSent + sumBy cm.connections (fun c => c.commandsSent)⟩

/-- One registry operation of a replayed sequence. -/
inductive RegistryOp where
  | add (conn : ConnM)
  | remove (identifier : String)

def applyRegistryOp (cm : ConnMgrM) : RegistryOp → ConnMgrM
  | .add conn => addConnection cm conn
  | .remove identifier => removeConnection cm identifier

def applyRegistryOps (cm : ConnMgrM) (ops : List RegistryOp) : ConnMgrM :=
  ops.foldl applyRegistryOp cm

/-- Checks that no add of the sequence reuses an identifier that is live at
that point, the reconnect-replacement case that loses counters. -/
def freshAdds (cm : ConnMgrM) : List RegistryOp → Bool
  | [] => true
  | .add conn :: rest =>
    (lookupA cm.connections conn.identifier).isNone && freshAdds (addConnection cm conn) rest
  | .remove identifier :: rest => freshAdds (removeConnection cm identifier) rest

/-- The counters a connection contributes to the lifetime totals. -/
def connTotals (conn : ConnM) : StatsTotals :=
  ⟨conn.bytesSent, conn.bytesReceived, conn.telemetryReceived, conn.commandsSent⟩

/-- The counters carried by the connections added along a sequence. -/
def addedTotals : List RegistryOp → StatsTotals
  | [] => ⟨0, 0, 0, 0⟩
  | .add conn :: rest => statsAdd (connTotals conn) (addedTotals rest)
  | .remove _ :: rest => addedTotals rest

/-- A connection whose session counters have grown before the registry
operation sequence continues; AddConnection accepts any such value. -/
def demoConnA : ConnM :=
  { newConnection "a" with
      bytesSent := 5, bytesReceived := 4, telemetryReceived := 3, commandsSent := 2 }

/-! ## Aliasing model for StateStore.GetState (storage/state.go)

Go maps are reference values: a ScooterState.State map holds, at each key,
either a scalar or a reference to another map object. To reason about
mutation through returned values, map objects live in an explicit heap
addressed by allocation order; GetState allocates a fresh top-level map
object holding the same entries as the stored one, exactly the loop
stateCopy.State[k] = v of the code, so nested references stay shared. -/
inductive HVal where
  | prim (s : String)
  | ref (a : Nat)
deriving DecidableEq

abbrev MapObj := List (String × HVal)

abbrev Heap := List MapObj

def heapGet : Heap → Nat → Option MapObj
  | [], _ => none
  | obj :: _, 0 => some obj
  | _ :: rest, a + 1 => heapGet rest a

def heapSet : Heap → Nat → MapObj → Heap
  | [], _, _ => []
  | _ :: rest, 0, m => m :: rest
  | obj :: rest, a + 1, m => obj :: heapSet rest a m

/-- Allocation of a fresh map object at the next address. -/
def heapAlloc (h : Heap) (m : MapObj) : Heap × Nat := (h ++ [m], h.length)

/-- Embedding of the copy made by StateStore.GetState: a fresh top-level map
object with the same entries as the object at the store root; values that
are references to nested section maps are copied as references. -/
def getStateCopy (h : Heap) (root : Nat) : Heap × Nat :=
  heapAlloc h ((heapGet h root).getD [])

/-- A Go map assignment performed by the caller through a reference it
holds: object[k] = v. -/
def mapAssign (h : Heap) (a : Nat) (k : String) (v : HVal) : Heap :=
  match heapGet h a with
  | none => h
  | some m => heapSet h a (insertA m k v)

/-- Reading out the pure nested value reachable from a heap value, to the
given depth; the store-owned state observed by a later GetState is the
resolution of the store root. -/
def resolveH (h : Heap) : Nat → HVal → Value
  | _, .prim s => .prim s
  | 0, .ref _ => .prim ""
  | fuel + 1, .ref a =>
    .vmap (((heapGet h a).getD []).map (fun kv => (kv.1, resolveH h fuel kv.2)))

/-- The scalar at state[sectionKey][fieldKey] of a resolved state. -/
def sectionField (v : Value) (sectionKey fieldKey : String) : Option String :=
  match v with
  | .vmap entries =>
    match lookupA entries sectionKey with
    | some (.vmap fields) =>
      match lookupA fields fieldKey with
      | some (.prim s) => some s
      | _ => none
    | _ => none
  | _ => none

def hvalBelow (n : Nat) : HVal → Bool
  | .prim _ => true
  | .ref a => decide (a < n)

def objBelow (n : Nat) (obj : MapObj) : Bool :=
  obj.all (fun kv => hvalBelow n kv.2)

def heapBelow (n : Nat) (h : Heap) : Bool :=
  h.all (objBelow n)

/-- A store-owned state for the copy claims: the nested section map
battery:0 = (charge, 64) lives at address 0 and the top-level state map at
address 1 holds a reference to it. -/
def demoHeap : Heap := [[("charge", .prim "64")], [("battery:0", .ref 0)]]

/-! ## Response parking (storage/response.go and
handlers/api.go handleGetCommandResponse) -/
/-- Embedding of protocol.CommandResponse. -/
structure CommandResponse where
  requestID : String
  status : String
  result : Option StateMap
  error : String

/-- Embedding of storage.CommandResponseRecord; ReceivedAt is irrelevant to
the parking claims and omitted. -/
structure CommandResponseRecordM where
  requestID : String
  scooterID : String
  command : String
  response : CommandResponse

abbrev ResponseStoreM := List (String × CommandResponseRecordM)

/-- Embedding of ResponseStore.Store: the record is written under its
request id, overwriting any previous record with that id. -/
def storeResponse (rs : ResponseStoreM) (requestID scooterID command : String)
    (resp : CommandResponse) : ResponseStoreM :=
  insertA rs requestID ⟨requestID, scooterID, command, resp⟩

/-- Embedding of ResponseStore.Get: a plain map lookup. -/
def getResponse (rs : ResponseStoreM) (requestID : String) : Option CommandResponseRecordM :=
  lookupA rs requestID

/-- The two shapes of the reply of handleGetCommandResponse: the pending
sentinel (HTTP 200 with status pending) or the parked record (HTTP 200). -/
inductive CommandResponseView where
  | pending (requestID : String)
  | found (record : CommandResponseRecordM)

/-- Embedding of APIHandler.handleGetCommandResponse: look the request id up
without blocking; reply with the pending sentinel when nothing is parked,
with the parked record otherwise. -/
def handleGetCommandResponse (rs : ResponseStoreM) (requestID : String) : CommandResponseView :=
  match getResponse rs requestID with
  | none => .pending requestID
  | some record => .found record

/-- One command_response parked by the reader of a peer connection. -/
structure ParkSpec where
  requestID : String
  scooterID : String
  command : String
  response : CommandResponse

def replayParks (rs : ResponseStoreM) (parks : List ParkSpec) : ResponseStoreM :=
  parks.foldl (fun m p => storeResponse m p.requestID p.scooterID p.command p.response) rs

/-! ## State endpoint (handlers/api.go handleGetScooterState) -/
/-- The three replies of handleGetScooterState: the 404 error body for a
peer absent from the registry, the 200 body with an empty state object when
no state is stored, and the 200 body with the stored state. -/
inductive ScooterStateResponse where
  | notConnected
  | emptyState (scooterID : String)
  | stateData (scooterID : String) (state : StateMap)

/-- The HTTP status code of each reply shape. -/
def scooterStateStatus : ScooterStateResponse → Nat
  | .notConnected => 404
  | .emptyState _ => 200
  | .stateData _ _ => 200

/-- Embedding of APIHandler.handleGetScooterState: first the registry is
consulted and a peer that is not connected gets the 404 error; only then is
the state store read, an absent entry giving the 200 empty-state body and a
present one the 200 state body. -/
def handleGetScooterState (connections : Registry) (states : StateStoreM)
    (scooterID : String) : ScooterStateResponse :=
  match lookupA connections scooterID with
  | none => .notConnected
  | some _ =>
    match getStateMap states scooterID with
    | none => .emptyState scooterID
    | some st => .stateData scooterID st

/-! ## Handshake (handlers/websocket.go HandleConnection)

The first frame read from a new peer connection is classified by the two
json.Unmarshal calls of the code: a frame that does not parse as a JSON
object fails the BaseMessage unmarshal; one that does carries a type string
and either parses as an AuthMessage or does not. -/
/-- The auth fields of protocol.AuthMessage. -/
structure AuthPayload where
  identifier : String
  token : String
  version : String
  protocolVersion : Nat
deriving DecidableEq

/-- Classification of the first frame of a connection. -/
inductive FirstFrame where
  | malformed
  | wellFormed (type_ : String) (authPayload : Option AuthPayload)
deriving DecidableEq

/-- Embedding of protocol.AuthResponse restricted to status and error. -/
structure AuthResponseM where
  status : String
  error : String
deriving DecidableEq

/-- What HandleConnection does with the first frame: close with no frame
sent, send one auth_response and close, or send the success auth_response
and start the session. -/
inductive HandshakeOutcome where
  | closedNoResponse
  | closedAfterResponse (response : AuthResponseM)
  | sessionStarted (response : AuthResponseM) (identifier : String)
deriving DecidableEq

/-- The auth_response frames a handshake outcome has written. -/
def sentAuthResponses : HandshakeOutcome → List AuthResponseM
  | .closedNoResponse => []
  | .closedAfterResponse response => [response]
  | .sessionStarted response _ => [response]

/-- Embedding of the handshake phase of HandleConnection: a frame that does
not parse as a JSON object is answered by closing the connection with no
auth_response; a parsed frame with a type other than auth, or an invalid
auth payload, or failing credentials, is answered by exactly one error
auth_response before closing; valid credentials start the session with one
success auth_response. -/
def handleFirstFrame (tokens : List (String × ScooterConfig)) (frame : FirstFrame) :
    HandshakeOutcome :=
  match frame with
  | .malformed => .closedNoResponse
  | .wellFormed type_ authPayload =>
    if type_ ≠ "auth" then
      .closedAfterResponse ⟨"error", "Expected authentication message"⟩
    else
      match authPayload with
      | none => .closedAfterResponse ⟨"error", "Invalid authentication message format"⟩
      | some authMsg =>
        match authenticate tokens authMsg.identifier authMsg.token with
        | .error _ => .closedAfterResponse ⟨"error", "Authentication failed"⟩
        | .ok _ => .sessionStarted ⟨"success", ""⟩ authMsg.identifier

/-! ## Theorems -/

theorem lookupA_insertA_self {α : Type} (m : List (String × α)) (key : String) (v : α) :
    lookupA (insertA m key v) key = some v := by
  induction m with
  | nil => simp [insertA, lookupA]
  | cons hd tl ih =>
    by_cases h : hd.1 = key
    · simp [insertA, lookupA, h]
    · simp [insertA, lookupA, h, ih]

theorem lookupA_insertA_ne {α : Type} (m : List (String × α)) (key key2 : String) (v : α)
    (h : key ≠ key2) : lookupA (insertA m key v) key2 = lookupA m key2 := by
  induction m with
  | nil => simp [insertA, lookupA, h]
  | cons hd tl ih =>
    by_cases h2 : hd.1 = key
    · simp [insertA, lookupA, h2, h]
    · simp [insertA, lookupA, h2, ih]

theorem applyChangeEntry_eq_spec (s : StateMap) (k : String) (v : Value) :
    applyChangeEntry s k v =
      (match lookupA s k, v with
       | some (.vmap ex), .vmap vm =>
         insertA s k (.vmap (vm.foldl (fun e p => insertA e p.1 p.2) ex))
       | _, _ => insertA s k v) := by
  cases v with
  | prim s0 =>
    cases h : lookupA s k with
    | none => simp [applyChangeEntry]
    | some w => cases w <;> simp [applyChangeEntry, h]
  | vmap vm =>
    cases h : lookupA s k with
    | none => simp [applyChangeEntry, h]
    | some w => cases w <;> simp [applyChangeEntry, h]

theorem foldl_applyChangeEntry_eq_spec (changes : StateMap) :
    ∀ cur : StateMap,
      changes.foldl (fun s kv => applyChangeEntry s kv.1 kv.2) cur =
        spec_update_delta cur changes := by
  induction changes with
  | nil => intro cur; rfl
  | cons kv rest ih =>
    intro cur
    show List.foldl _ (applyChangeEntry cur kv.1 kv.2) rest = _
    rw [ih, applyChangeEntry_eq_spec]
    rfl

theorem replayStore_lookup (ops : List (String × UpdateMsg)) :
    ∀ (ss : StateStoreM) (p : String),
      lookupA (replayStore ss ops) p =
        (match framesFor p ops with
         | [] => lookupA ss p
         | l => some (specReplay ((lookupA ss p).getD []) l)) := by
  induction ops with
  | nil => intro ss p; simp [replayStore, framesFor]
  | cons op rest ih =>
    intro ss p
    obtain ⟨id, msg⟩ := op
    by_cases hid : id = p
    · subst hid
      have hframes : framesFor id ((id, msg) :: rest) = msg :: framesFor id rest := by
        simp [framesFor]
      cases msg with
      | full data =>
        have hlook : lookupA (updateState ss id data) id = some data :=
          lookupA_insertA_self ss id data
        rw [show replayStore ss ((id, .full data) :: rest)
              = replayStore (updateState ss id data) rest from rfl,
            ih (updateState ss id data) id, hframes]
        cases hrest : framesFor id rest with
        | nil => simp [hrest, hlook, specReplay, spec_update_full]
        | cons m ms => simp [hrest, hlook, specReplay, spec_update_full]
      | delta changes =>
        have hlook : lookupA (updateChanges ss id changes) id
            = some (spec_update_delta ((lookupA ss id).getD []) changes) := by
          rw [show updateChanges ss id changes
                = insertA ss id (changes.foldl (fun s kv => applyChangeEntry s kv.1 kv.2)
                    ((lookupA ss id).getD [])) from rfl,
              lookupA_insertA_self, foldl_applyChangeEntry_eq_spec]
        rw [show replayStore ss ((id, .delta changes) :: rest)
              = replayStore (updateChanges ss id changes) rest from rfl,
            ih (updateChanges ss id changes) id, hframes]
        cases hrest : framesFor id rest with
        | nil => simp [hrest, hlook, specReplay]
        | cons m ms => simp [hrest, hlook, specReplay]
    · have hframes : framesFor p ((id, msg) :: rest) = framesFor p rest := by
        simp [framesFor, hid]
      have hlook : ∀ data, lookupA (insertA ss id data) p = lookupA ss p :=
        fun data => lookupA_insertA_ne ss id p data hid
      cases msg with
      | full data =>
        rw [show replayStore ss ((id, .full data) :: rest)
              = replayStore (updateState ss id data) rest from rfl,
            ih (updateState ss id data) p, hframes]
        cases hrest : framesFor p rest with
        | nil => simp [hrest, updateState, hlook]
        | cons m ms => simp [hrest, updateState, hlook]
      | delta changes =>
        rw [show replayStore ss ((id, .delta changes) :: rest)
              = replayStore (updateChanges ss id changes) rest from rfl,
            ih (updateChanges ss id changes) p, hframes]
        cases hrest : framesFor p rest with
        | nil => simp [hrest, updateChanges, hlook]
        | cons m ms => simp [hrest, updateChanges, hlook]

/-- C1: for every peer and every sequence of full and delta state updates,
the state stored after replaying the sequence through the embeddings of
StateStore.UpdateState and StateStore.UpdateChanges equals the result of
replaying the frames addressed to that peer through the documented merge
rules (spec_update_full and spec_update_delta): a full update replaces the
stored top-level map wholesale, a delta merges exactly one level deep with
deeper values replacing. -/
theorem C1_state_merge_refinement (ops : List (String × UpdateMsg)) (p : String) :
    getStateMap (replayStore [] ops) p =
      (match framesFor p ops with
       | [] => none
       | l => some (specReplay [] l)) := by
  rw [show getStateMap (replayStore [] ops) p = lookupA (replayStore [] ops) p from rfl,
      replayStore_lookup ops [] p]
  cases hrest : framesFor p ops with
  | nil => rfl
  | cons m ms => rfl

theorem getEvents_zero (es : EventStoreM) (p : String) :
    getEvents es p 0 = perPeerEvents es p := by
  cases h : lookupA es p <;> simp [getEvents, perPeerEvents, h]

theorem take_cons_take {α : Type} (n : Nat) (e : α) (xs : List α) :
    (e :: xs.take n).take n = (e :: xs).take n := by
  cases n with
  | zero => rfl
  | succ m => simp [List.take_succ_cons, List.take_take]

theorem take_append_take {α : Type} (xs ys : List α) :
    ∀ n m : Nat, n ≤ m → (xs ++ ys.take m).take n = (xs ++ ys).take n := by
  induction xs with
  | nil =>
    intro n m h
    simp [List.take_take, Nat.min_eq_left h]
  | cons x xs ih =>
    intro n m h
    cases n with
    | zero => rfl
    | succ k =>
      simp only [List.cons_append, List.take_succ_cons]
      rw [ih k m (Nat.le_of_succ_le h)]

theorem perPeerEvents_addEvent_self (maxPerScooter : Nat) (hmax : 1 ≤ maxPerScooter)
    (es : EventStoreM) (p eventName : String) (data : Option StateMap) (ts : DateTime) :
    perPeerEvents (addEvent maxPerScooter es p eventName data ts) p =
      ((⟨eventID ts, p, eventName, data, ts⟩ : EventM) :: perPeerEvents es p).take maxPerScooter := by
  cases hl : lookupA es p with
  | none =>
    have h1 : ([(⟨eventID ts, p, eventName, data, ts⟩ : EventM)]).take maxPerScooter
        = [⟨eventID ts, p, eventName, data, ts⟩] :=
      List.take_of_length_le (by simpa using hmax)
    simp [addEvent, perPeerEvents, hl, lookupA_insertA_self, h1]
  | some events =>
    by_cases hlen : (( ⟨eventID ts, p, eventName, data, ts⟩ : EventM) :: events).length > maxPerScooter
    · simp [addEvent, perPeerEvents, hl, lookupA_insertA_self, hlen]
    · have hle : ((⟨eventID ts, p, eventName, data, ts⟩ : EventM) :: events).length ≤ maxPerScooter :=
        Nat.le_of_not_lt hlen
      simp [addEvent, perPeerEvents, hl, lookupA_insertA_self, hlen,
        List.take_of_length_le hle]

theorem perPeerEvents_addEvent_ne (maxPerScooter : Nat) (es : EventStoreM)
    (q p eventName : String) (data : Option StateMap) (ts : DateTime) (hne : q ≠ p) :
    perPeerEvents (addEvent maxPerScooter es q eventName data ts) p = perPeerEvents es p := by
  cases hl : lookupA es q with
  | none => simp [addEvent, perPeerEvents, hl, lookupA_insertA_ne _ _ _ _ hne]
  | some events => simp [addEvent, perPeerEvents, hl, lookupA_insertA_ne _ _ _ _ hne]

theorem replayAdds_perPeer (maxPerScooter : Nat) (hmax : 1 ≤ maxPerScooter)
    (adds : List AddSpec) :
    ∀ (es : EventStoreM) (p : String),
      perPeerEvents (replayAdds maxPerScooter es adds) p =
        (match addsFor p adds with
         | [] => perPeerEvents es p
         | l => ((l.map mkEvent).reverse ++ perPeerEvents es p).take maxPerScooter) := by
  induction adds with
  | nil => intro es p; simp [replayAdds, addsFor]
  | cons a rest ih =>
    intro es p
    by_cases hp : a.scooterID = p
    · have hfor : addsFor p (a :: rest) = a :: addsFor p rest := by
        simp [addsFor, hp]
      have hstep : perPeerEvents (addEvent maxPerScooter es a.scooterID a.eventName a.data a.timestamp) p
          = (mkEvent a :: perPeerEvents es p).take maxPerScooter := by
        rw [show mkEvent a
              = (⟨eventID a.timestamp, a.scooterID, a.eventName, a.data, a.timestamp⟩ : EventM)
            from rfl, hp]
        exact perPeerEvents_addEvent_self maxPerScooter hmax es p a.eventName a.data a.timestamp
      rw [show replayAdds maxPerScooter es (a :: rest)
            = replayAdds maxPerScooter (addEvent maxPerScooter es a.scooterID a.eventName a.data a.timestamp) rest
          from rfl, ih _ p, hfor]
      cases hrest : addsFor p rest with
      | nil =>
        simp only [hrest, hstep]
        simp [take_cons_take]
      | cons b bs =>
        simp only [hrest, hstep]
        rw [take_append_take _ _ maxPerScooter maxPerScooter (Nat.le_refl _)]
        simp [List.map_reverse]
    · have hfor : addsFor p (a :: rest) = addsFor p rest := by
        simp [addsFor, hp]
      rw [show replayAdds maxPerScooter es (a :: rest)
            = replayAdds maxPerScooter (addEvent maxPerScooter es a.scooterID a.eventName a.data a.timestamp) rest
          from rfl, ih _ p, hfor,
          perPeerEvents_addEvent_ne maxPerScooter es a.scooterID p a.eventName a.data a.timestamp hp]

theorem head?_take_pos {α : Type} (n : Nat) (hn : 1 ≤ n) (xs : List α) :
    (xs.take n).head? = xs.head? := by
  cases n with
  | zero => exact absurd hn (by simp)
  | succ m => cases xs <;> simp

/-- C2: for every peer, after any sequence of AddEvent calls starting from an
empty store, the per-peer event list equals the reversed chronological list
of that peer's appends truncated to maxPerScooter, hence it is newest-first
with the most recent append at index 0, its length never exceeds
maxPerScooter, and after maxPerScooter plus k appends it has exactly
maxPerScooter entries, the newest appends, the oldest trimmed. -/
theorem C2_event_cap_newest_first (maxPerScooter : Nat) (adds : List AddSpec) (p : String)
    (hmax : 1 ≤ maxPerScooter) :
    getEvents (replayAdds maxPerScooter [] adds) p 0
        = (((addsFor p adds).map mkEvent).reverse).take maxPerScooter
    ∧ (getEvents (replayAdds maxPerScooter [] adds) p 0).length ≤ maxPerScooter
    ∧ (∀ k : Nat, (addsFor p adds).length = maxPerScooter + k →
        (getEvents (replayAdds maxPerScooter [] adds) p 0).length = maxPerScooter)
    ∧ (∀ a : AddSpec, (addsFor p adds).getLast? = some a →
        (getEvents (replayAdds maxPerScooter [] adds) p 0).head? = some (mkEvent a)) := by
  have hmain : getEvents (replayAdds maxPerScooter [] adds) p 0
      = (((addsFor p adds).map mkEvent).reverse).take maxPerScooter := by
    rw [getEvents_zero, replayAdds_perPeer maxPerScooter hmax adds [] p]
    cases hfor : addsFor p adds with
    | nil => simp [perPeerEvents, lookupA]
    | cons b bs => simp [perPeerEvents, lookupA]
  refine ⟨hmain, ?_, ?_, ?_⟩
  · rw [hmain, List.length_take]
    exact Nat.min_le_left _ _
  · intro k hk
    rw [hmain, List.length_take, List.length_reverse, List.length_map, hk]
    exact Nat.min_eq_left (Nat.le_add_right _ _)
  · intro a ha
    rw [hmain, head?_take_pos maxPerScooter hmax, List.head?_reverse, List.getLast?_map, ha]
    rfl

theorem C2_event_cap_newest_first_witness :
    1 ≤ 2
    ∧ getEvents (replayAdds 2 [] demoAdds) "s1" 0
        = (((addsFor "s1" demoAdds).map mkEvent).reverse).take 2
    ∧ (getEvents (replayAdds 2 [] demoAdds) "s1" 0).map EventM.event = ["stop", "ride"] :=
  ⟨by decide, (C2_event_cap_newest_first 2 demoAdds "s1" (by decide)).1, by rfl⟩

/-- C8: authentication succeeds exactly when the identifier is present and
the presented token equals the stored token; an absent identifier yields the
unknown-identifier error kind, a present identifier with a differing token
yields the invalid-token error kind, and the two kinds are distinct. -/
theorem C8_authenticate_exact (tokens : List (String × ScooterConfig))
    (identifier token : String) :
    (authenticate tokens identifier token = .ok () ↔
      ∃ cfg, lookupA tokens identifier = some cfg ∧ token = cfg.token)
    ∧ (lookupA tokens identifier = none →
        authenticate tokens identifier token = .error (.unknownIdentifier identifier))
    ∧ (∀ cfg, lookupA tokens identifier = some cfg → token ≠ cfg.token →
        authenticate tokens identifier token = .error (.invalidToken identifier))
    ∧ (∀ i j : String, AuthError.unknownIdentifier i ≠ AuthError.invalidToken j) := by
  refine ⟨?_, ?_, ?_, ?_⟩
  · constructor
    · intro h
      cases hl : lookupA tokens identifier with
      | none => simp [authenticate, hl] at h
      | some cfg =>
        by_cases ht : token = cfg.token
        · exact ⟨cfg, rfl, ht⟩
        · simp [authenticate, hl, ht] at h
    · rintro ⟨cfg, hl, ht⟩
      simp [authenticate, hl, ht]
  · intro hl
    simp [authenticate, hl]
  · intro cfg hl ht
    simp [authenticate, hl, ht]
  · intro i j h
    cases h

theorem C8_authenticate_exact_witness :
    authenticate [("scooter-1", ⟨"tok", "demo"⟩)] "scooter-1" "wrong"
        = .error (.invalidToken "scooter-1")
    ∧ authenticate [("scooter-1", ⟨"tok", "demo"⟩)] "scooter-2" "tok"
        = .error (.unknownIdentifier "scooter-2")
    ∧ authenticate [("scooter-1", ⟨"tok", "demo"⟩)] "scooter-1" "tok" = .ok () :=
  ⟨(C8_authenticate_exact [("scooter-1", ⟨"tok", "demo"⟩)] "scooter-1" "wrong").2.2.1
      ⟨"tok", "demo"⟩ (by rfl) (by decide),
   (C8_authenticate_exact [("scooter-1", ⟨"tok", "demo"⟩)] "scooter-2" "tok").2.1 (by rfl),
   (C8_authenticate_exact [("scooter-1", ⟨"tok", "demo"⟩)] "scooter-1" "tok").1.2
      ⟨⟨"tok", "demo"⟩, by rfl, by rfl⟩⟩

/-- C4: SendCommand fails with the not-connected error when the peer is
absent from the registry, with the not-authenticated error when present but
unauthenticated, with the backpressure error when the outbound queue of
capacity 256 is full; it enqueues the command frame and increments
commandsSent exactly on success, and leaves the registry untouched on every
failure path. -/
theorem C4_send_command_errors (connections : Registry) (now : DateTime)
    (timestampStr identifier command : String) (params : StateMap) :
    (lookupA connections identifier = none →
      sendCommand connections now timestampStr identifier command params
        = (.error .connectionNotFound, connections))
    ∧ (∀ c : ConnM, lookupA connections identifier = some c → c.authenticated = false →
        sendCommand connections now timestampStr identifier command params
          = (.error .notAuthenticated, connections))
    ∧ (∀ c : ConnM, lookupA connections identifier = some c → c.authenticated = true →
        sendChanCapacity ≤ c.sendChan.length →
        sendCommand connections now timestampStr identifier command params
          = (.error .sendChannelFull, connections))
    ∧ (∀ c : ConnM, lookupA connections identifier = some c → c.authenticated = true →
        c.sendChan.length < sendChanCapacity →
        sendCommand connections now timestampStr identifier command params
          = (.ok (generateRequestID now),
             insertA connections identifier
               { c with
                   sendChan := c.sendChan ++
                     [.command ⟨"command", generateRequestID now, command, params, timestampStr⟩],
                   commandsSent := c.commandsSent + 1 }))
    ∧ (∀ e : SendCommandError,
        (sendCommand connections now timestampStr identifier command params).1 = .error e →
        (sendCommand connections now timestampStr identifier command params).2 = connections) := by
  refine ⟨?_, ?_, ?_, ?_, ?_⟩
  · intro hl; simp [sendCommand, hl]
  · intro c hl hauth; simp [sendCommand, hl, hauth]
  · intro c hl hauth hfull
    simp [sendCommand, hl, hauth, Nat.not_lt_of_le hfull]
  · intro c hl hauth hroom
    simp [sendCommand, hl, hauth, hroom]
  · intro e
    cases hl : lookupA connections identifier with
    | none => simp [sendCommand, hl]
    | some c =>
      by_cases hauth : c.authenticated = false
      · simp [sendCommand, hl, hauth]
      · by_cases hroom : c.sendChan.length < sendChanCapacity
        · simp [sendCommand, hl, hauth, hroom]
        · simp [sendCommand, hl, hauth, hroom]

set_option maxRecDepth 4096 in
theorem C4_send_command_errors_witness :
    sendCommand demoRegistry ⟨2025, 1, 1, 0, 0, 0, 0⟩ "t" "ghost-peer" "ping" []
        = (.error .connectionNotFound, demoRegistry)
    ∧ sendCommand demoRegistry ⟨2025, 1, 1, 0, 0, 0, 0⟩ "t" "full-peer" "ping" []
        = (.error .sendChannelFull, demoRegistry) :=
  ⟨(C4_send_command_errors demoRegistry ⟨2025, 1, 1, 0, 0, 0, 0⟩ "t" "ghost-peer" "ping" []).1
      (by rfl),
   (C4_send_command_errors demoRegistry ⟨2025, 1, 1, 0, 0, 0, 0⟩ "t" "full-peer" "ping" []).2.2.1
      ({ newConnection "full-peer" with
          authenticated := true,
          sendChan := List.replicate 256 (.keepalive "t") })
      (by rfl) (by rfl) (by simp [sendChanCapacity])⟩

theorem sumBy_eraseA (conns : Registry) (identifier : String) (conn : ConnM) (f : ConnM → Nat)
    (h : lookupA conns identifier = some conn) :
    sumBy conns f = f conn + sumBy (eraseA conns identifier) f := by
  induction conns with
  | nil => simp [lookupA] at h
  | cons kv rest ih =>
    by_cases hk : kv.1 = identifier
    · rw [lookupA] at h
      rw [if_pos hk] at h
      obtain rfl : kv.2 = conn := by injection h
      simp [sumBy, eraseA, hk]
    · rw [lookupA] at h
      rw [if_neg hk] at h
      have := ih h
      simp only [sumBy, eraseA, if_neg hk, List.map_cons, List.sum_cons] at *
      omega

theorem sumBy_insertA_fresh (conns : Registry) (identifier : String) (v : ConnM) (f : ConnM → Nat)
    (h : lookupA conns identifier = none) :
    sumBy (insertA conns identifier v) f = sumBy conns f + f v := by
  induction conns with
  | nil => simp [sumBy, insertA]
  | cons kv rest ih =>
    by_cases hk : kv.1 = identifier
    · rw [lookupA] at h
      rw [if_pos hk] at h
      cases h
    · rw [lookupA] at h
      rw [if_neg hk] at h
      have := ih h
      simp only [sumBy, insertA, if_neg hk, List.map_cons, List.sum_cons] at *
      omega

theorem getStatsTotals_removeConnection (cm : ConnMgrM) (identifier : String) :
    getStatsTotals (removeConnection cm identifier) = getStatsTotals cm := by
  cases h : lookupA cm.connections identifier with
  | none => simp [removeConnection, h]
  | some conn =>
    simp only [removeConnection, h, getStatsTotals]
    have h1 := sumBy_eraseA cm.connections identifier conn (fun c => c.bytesSent) h
    have h2 := sumBy_eraseA cm.connections identifier conn (fun c => c.bytesReceived) h
    have h3 := sumBy_eraseA cm.connections identifier conn (fun c => c.telemetryReceived) h
    have h4 := sumBy_eraseA cm.connections identifier conn (fun c => c.commandsSent) h
    simp only [] at h1 h2 h3 h4
    simp only [StatsTotals.mk.injEq]
    refine ⟨by omega, by omega, by omega, by omega⟩

theorem getStatsTotals_addConnection_fresh (cm : ConnMgrM) (conn : ConnM)
    (h : lookupA cm.connections conn.identifier = none) :
    getStatsTotals (addConnection cm conn) = statsAdd (getStatsTotals cm) (connTotals conn) := by
  simp only [addConnection, getStatsTotals, statsAdd, connTotals]
  have h1 := sumBy_insertA_fresh cm.connections conn.identifier conn (fun c => c.bytesSent) h
  have h2 := sumBy_insertA_fresh cm.connections conn.identifier conn (fun c => c.bytesReceived) h
  have h3 := sumBy_insertA_fresh cm.connections conn.identifier conn (fun c => c.telemetryReceived) h
  have h4 := sumBy_insertA_fresh cm.connections conn.identifier conn (fun c => c.commandsSent) h
  simp only [] at h1 h2 h3 h4
  simp only [StatsTotals.mk.injEq]
  refine ⟨by omega, by omega, by omega, by omega⟩

theorem statsAdd_zero (a : StatsTotals) : statsAdd a ⟨0, 0, 0, 0⟩ = a := by
  simp [statsAdd]

theorem statsAdd_assoc (a b c : StatsTotals) :
    statsAdd (statsAdd a b) c = statsAdd a (statsAdd b c) := by
  simp [statsAdd, Nat.add_assoc]

theorem applyRegistryOps_totals (ops : List RegistryOp) :
    ∀ cm : ConnMgrM, freshAdds cm ops = true →
      getStatsTotals (applyRegistryOps cm ops) = statsAdd (getStatsTotals cm) (addedTotals ops) := by
  induction ops with
  | nil => intro cm _; simp [applyRegistryOps, addedTotals, statsAdd_zero]
  | cons op rest ih =>
    intro cm hfresh
    cases op with
    | add conn =>
      rw [freshAdds, Bool.and_eq_true, Option.isNone_iff_eq_none] at hfresh
      have hstep : applyRegistryOps cm (.add conn :: rest)
          = applyRegistryOps (addConnection cm conn) rest := rfl
      rw [hstep, ih _ hfresh.2, getStatsTotals_addConnection_fresh cm conn hfresh.1,
          addedTotals, statsAdd_assoc]
    | remove identifier =>
      rw [freshAdds] at hfresh
      have hstep : applyRegistryOps cm (.remove identifier :: rest)
          = applyRegistryOps (removeConnection cm identifier) rest := rfl
      rw [hstep, ih _ hfresh, getStatsTotals_removeConnection, addedTotals]

/-- C9 counterexample: adding a connection under an identifier that is
already live replaces the prior entry without rolling its counters into the
cumulative totals, so the lifetime total byte count reported by GetStats
drops from 5 to 0 when the sequence of adds and removes is extended by one
add; the claim that the reported totals never decrease over every sequence
of registry operations is therefore false. -/
theorem C9_stats_never_decrease_counterexample :
    (getStatsTotals (applyRegistryOps newConnectionManager [.add demoConnA])).bytesSent = 5
    ∧ (getStatsTotals (applyRegistryOps newConnectionManager
        [.add demoConnA, .add (newConnection "a")])).bytesSent = 0
    ∧ ¬ ((getStatsTotals (applyRegistryOps newConnectionManager [.add demoConnA])).bytesSent
          ≤ (getStatsTotals (applyRegistryOps newConnectionManager
              [.add demoConnA, .add (newConnection "a")])).bytesSent) :=
  ⟨by decide, by decide, by decide⟩

/-- C9 amended: removing a present connection rolls its byte, telemetry and
command counters into the cumulative totals before deleting it, so every
remove leaves the lifetime totals reported by GetStats unchanged; and along
any operation sequence in which no add reuses a live identifier, the
reported totals equal the starting totals plus the counters carried by the
added connections, hence never decrease. -/
theorem C9_stats_rollup_amended (cm : ConnMgrM) (identifier : String) (ops : List RegistryOp) :
    getStatsTotals (removeConnection cm identifier) = getStatsTotals cm
    ∧ (freshAdds cm ops = true →
        getStatsTotals (applyRegistryOps cm ops)
            = statsAdd (getStatsTotals cm) (addedTotals ops)
          ∧ statsLE (getStatsTotals cm) (getStatsTotals (applyRegistryOps cm ops))) := by
  refine ⟨getStatsTotals_removeConnection cm identifier, fun hfresh => ?_⟩
  have heq := applyRegistryOps_totals ops cm hfresh
  refine ⟨heq, ?_⟩
  rw [heq]
  exact ⟨Nat.le_add_right _ _, Nat.le_add_right _ _, Nat.le_add_right _ _, Nat.le_add_right _ _⟩

theorem C9_stats_rollup_amended_witness :
    freshAdds newConnectionManager [.add demoConnA, .remove "a", .add (newConnection "a")] = true
    ∧ getStatsTotals (applyRegistryOps newConnectionManager
          [.add demoConnA, .remove "a", .add (newConnection "a")])
        = statsAdd (getStatsTotals newConnectionManager)
            (addedTotals [.add demoConnA, .remove "a", .add (newConnection "a")]) :=
  ⟨by decide,
   ((C9_stats_rollup_amended newConnectionManager "a"
      [.add demoConnA, .remove "a", .add (newConnection "a")]).2 (by decide)).1⟩

theorem heapBelow_get (n : Nat) (h : Heap) (hh : heapBelow n h = true) :
    ∀ (a : Nat) (obj : MapObj), heapGet h a = some obj → objBelow n obj = true := by
  induction h with
  | nil => intro a obj hobj; cases a <;> simp [heapGet] at hobj
  | cons o rest ih =>
    rw [heapBelow, List.all_cons, Bool.and_eq_true] at hh
    intro a obj hobj
    cases a with
    | zero =>
      rw [heapGet] at hobj
      obtain rfl : o = obj := by injection hobj
      exact hh.1
    | succ a2 =>
      rw [heapGet] at hobj
      exact ih hh.2 a2 obj hobj

theorem heapGet_append_self (h : Heap) (m : MapObj) :
    heapGet (h ++ [m]) h.length = some m := by
  induction h with
  | nil => rfl
  | cons o rest ih => simpa [heapGet] using ih

theorem heapGet_set_append (h : Heap) (m m2 : MapObj) :
    ∀ a : Nat, a < h.length → heapGet (heapSet (h ++ [m]) h.length m2) a = heapGet h a := by
  induction h with
  | nil => intro a ha; simp at ha
  | cons o rest ih =>
    intro a ha
    cases a with
    | zero => rfl
    | succ a2 =>
      have : a2 < rest.length := by simpa using ha
      simpa [heapSet, heapGet] using ih a2 this

theorem mapResolve_congr (h h2 : Heap) (fuel n : Nat)
    (hres : ∀ v : HVal, hvalBelow n v = true → resolveH h2 fuel v = resolveH h fuel v) :
    ∀ obj : MapObj, objBelow n obj = true →
      obj.map (fun kv => (kv.1, resolveH h2 fuel kv.2))
        = obj.map (fun kv => (kv.1, resolveH h fuel kv.2)) := by
  intro obj
  induction obj with
  | nil => intro _; rfl
  | cons kv rest ih =>
    intro hb
    rw [objBelow, List.all_cons, Bool.and_eq_true] at hb
    simp only [List.map_cons]
    rw [hres kv.2 hb.1, ih hb.2]

theorem resolveH_agree (h h2 : Heap) (n : Nat)
    (hagree : ∀ a : Nat, a < n → heapGet h2 a = heapGet h a)
    (hwf : ∀ (a : Nat) (obj : MapObj), a < n → heapGet h a = some obj → objBelow n obj = true) :
    ∀ (fuel : Nat) (v : HVal), hvalBelow n v = true → resolveH h2 fuel v = resolveH h fuel v := by
  intro fuel
  induction fuel with
  | zero => intro v hv; cases v <;> rfl
  | succ fuel ih =>
    intro v hv
    cases v with
    | prim s => rfl
    | ref a =>
      have ha : a < n := by simpa [hvalBelow] using hv
      show Value.vmap _ = Value.vmap _
      rw [hagree a ha]
      cases hobj : heapGet h a with
      | none => rfl
      | some obj =>
        have hob := hwf a obj ha hobj
        simp only [Option.getD_some]
        rw [mapResolve_congr h h2 fuel n ih obj hob]

/-- C3 counterexample: GetState copies only the top-level map. The copy is
allocated at address 2 and still holds the reference to the shared section
map at address 0; assigning charge = 99 through that reference, exactly as
a caller mutating the returned nested map does, changes the state a
subsequent GetState resolves from the store root, so the returned copies
are not deep enough to shield store-owned state from caller mutation of
nested section maps. -/
theorem C3_get_state_deep_copy_counterexample :
    (getStateCopy demoHeap 1).2 = 2
    ∧ lookupA ((heapGet (getStateCopy demoHeap 1).1 2).getD []) "battery:0" = some (.ref 0)
    ∧ sectionField (resolveH demoHeap 2 (.ref 1)) "battery:0" "charge" = some "64"
    ∧ sectionField
        (resolveH (mapAssign (getStateCopy demoHeap 1).1 0 "charge" (.prim "99")) 2 (.ref 1))
        "battery:0" "charge" = some "99"
    ∧ resolveH (mapAssign (getStateCopy demoHeap 1).1 0 "charge" (.prim "99")) 2 (.ref 1)
        ≠ resolveH demoHeap 2 (.ref 1) := by
  refine ⟨rfl, rfl, rfl, rfl, fun heq => ?_⟩
  have hcontr := congrArg (fun w => sectionField w "battery:0" "charge") heq
  simp only [] at hcontr
  have h99 : sectionField
      (resolveH (mapAssign (getStateCopy demoHeap 1).1 0 "charge" (.prim "99")) 2 (.ref 1))
      "battery:0" "charge" = some "99" := rfl
  have h64 : sectionField (resolveH demoHeap 2 (.ref 1)) "battery:0" "charge" = some "64" := rfl
  rw [h99, h64] at hcontr
  exact absurd hcontr (by decide)

/-- C3 amended: the top-level map returned by GetState is itself fresh, so a
caller assignment of a top-level key into the returned map is never
observable in the state subsequently resolved from the store root, for any
well-formed heap whose references stay inside it; nested section maps, by
the counterexample, remain shared. -/
theorem C3_get_state_top_level_copy (h : Heap) (root : Nat) (k : String) (v : HVal) (fuel : Nat)
    (hwf : heapBelow h.length h = true) (hroot : root < h.length) :
    resolveH (mapAssign (getStateCopy h root).1 (getStateCopy h root).2 k v) fuel (.ref root)
      = resolveH h fuel (.ref root) := by
  have hg : heapGet (h ++ [(heapGet h root).getD []]) h.length
      = some ((heapGet h root).getD []) := heapGet_append_self h _
  have hassign : mapAssign (getStateCopy h root).1 (getStateCopy h root).2 k v
      = heapSet (h ++ [(heapGet h root).getD []]) h.length
          (insertA ((heapGet h root).getD []) k v) := by
    show mapAssign (h ++ [(heapGet h root).getD []]) h.length k v = _
    rw [mapAssign, hg]
  rw [hassign]
  exact resolveH_agree h _ h.length
    (fun a ha => heapGet_set_append h _ _ a ha)
    (fun a obj _ hobj => heapBelow_get h.length h hwf a obj hobj)
    fuel (.ref root) (by simpa [hvalBelow] using hroot)

theorem C3_get_state_top_level_copy_witness :
    heapBelow demoHeap.length demoHeap = true
    ∧ 1 < demoHeap.length
    ∧ resolveH (mapAssign (getStateCopy demoHeap 1).1 (getStateCopy demoHeap 1).2
          "vehicle" (.prim "stand-by")) 3 (.ref 1)
        = resolveH demoHeap 3 (.ref 1) :=
  ⟨by decide, by decide,
   C3_get_state_top_level_copy demoHeap 1 "vehicle" (.prim "stand-by") 3 (by decide) (by decide)⟩

theorem replayParks_lookup (parks : List ParkSpec) :
    ∀ (rs : ResponseStoreM) (r : String),
      getResponse (replayParks rs parks) r =
        (match (parks.filter (fun p => p.requestID = r)).getLast? with
         | none => getResponse rs r
         | some p => some ⟨p.requestID, p.scooterID, p.command, p.response⟩) := by
  induction parks with
  | nil => intro rs r; simp [replayParks]
  | cons p rest ih =>
    intro rs r
    have hstep : replayParks rs (p :: rest)
        = replayParks (storeResponse rs p.requestID p.scooterID p.command p.response) rest := rfl
    by_cases hp : p.requestID = r
    · have hfil : (p :: rest).filter (fun q => q.requestID = r)
          = p :: rest.filter (fun q => q.requestID = r) := by
        simp [List.filter_cons, hp]
      have hself : getResponse (storeResponse rs p.requestID p.scooterID p.command p.response) r
          = some ⟨p.requestID, p.scooterID, p.command, p.response⟩ := by
        rw [getResponse, storeResponse, hp, lookupA_insertA_self]
      rw [hstep, ih _ r, hfil]
      cases hrest : rest.filter (fun q => q.requestID = r) with
      | nil => simp [hself]
      | cons q qs =>
        cases hlast : (q :: qs).getLast? with
        | none =>
          rw [List.getLast?_eq_none_iff] at hlast
          cases hlast
        | some x => simp [hlast]
    · have hfil : (p :: rest).filter (fun q => q.requestID = r)
          = rest.filter (fun q => q.requestID = r) := by
        simp [List.filter_cons, hp]
      have hother : getResponse (storeResponse rs p.requestID p.scooterID p.command p.response) r
          = getResponse rs r := by
        rw [getResponse, storeResponse, lookupA_insertA_ne _ _ _ _ hp]
        rfl
      rw [hstep, ih _ r, hfil, hother]

/-- C5: for every request id, the non-blocking result lookup returns the
pending sentinel while no command response with that id has been parked,
and after one or more have been parked it returns the record of the most
recently parked one, a later response with the same id having overwritten
the earlier entry. -/
theorem C5_response_last_parked_wins (parks : List ParkSpec) (r : String) :
    handleGetCommandResponse (replayParks [] parks) r =
      (match (parks.filter (fun p => p.requestID = r)).getLast? with
       | none => .pending r
       | some p => .found ⟨p.requestID, p.scooterID, p.command, p.response⟩) := by
  rw [handleGetCommandResponse, replayParks_lookup parks [] r]
  cases hrest : (parks.filter (fun p => p.requestID = r)).getLast? with
  | none => rfl
  | some p => rfl

/-- C6 counterexample: for a peer identifier that has stored state but is
not currently connected, the endpoint replies 404, not the 200 with the
latest stored state that the claim promises for every peer identifier. -/
theorem C6_state_endpoint_counterexample :
    scooterStateStatus
        (handleGetScooterState [] [("s1", [("vehicle", .prim "stand-by")])] "s1") = 404
    ∧ scooterStateStatus
        (handleGetScooterState [] [("s1", [("vehicle", .prim "stand-by")])] "s1") ≠ 200 :=
  ⟨rfl, by decide⟩

/-- C6 amended: for every peer identifier present in the registry, an
authenticated GET of the state endpoint replies HTTP 200 with the latest
stored state, and HTTP 200 with the empty state object when no state is
stored; an identifier absent from the registry is answered 404. -/
theorem C6_state_endpoint_connected (connections : Registry) (states : StateStoreM)
    (scooterID : String) :
    (∀ c : ConnM, lookupA connections scooterID = some c →
      scooterStateStatus (handleGetScooterState connections states scooterID) = 200
      ∧ handleGetScooterState connections states scooterID =
          (match getStateMap states scooterID with
           | none => .emptyState scooterID
           | some st => .stateData scooterID st))
    ∧ (lookupA connections scooterID = none →
        handleGetScooterState connections states scooterID = .notConnected) := by
  constructor
  · intro c hc
    constructor
    · rw [handleGetScooterState, hc]
      cases hs : getStateMap states scooterID with
      | none => rfl
      | some st => rfl
    · rw [handleGetScooterState, hc]
  · intro hc
    rw [handleGetScooterState, hc]

theorem C6_state_endpoint_connected_witness :
    scooterStateStatus
        (handleGetScooterState demoRegistry [("idle-peer", [("vehicle", .prim "stand-by")])]
          "idle-peer") = 200
    ∧ handleGetScooterState demoRegistry [] "idle-peer" = .emptyState "idle-peer" :=
  ⟨((C6_state_endpoint_connected demoRegistry [("idle-peer", [("vehicle", .prim "stand-by")])]
      "idle-peer").1 ({ newConnection "idle-peer" with authenticated := true }) (by rfl)).1,
   ((C6_state_endpoint_connected demoRegistry [] "idle-peer").1
      ({ newConnection "idle-peer" with authenticated := true }) (by rfl)).2⟩

/-! ## Event ids (storage/event.go AddEvent) -/
/-- C7: the id built by AddEvent is deterministic in the timestamp, but its
tail is the layout string copied verbatim: Go recognizes no pattern in the
layout 000000000, fractional seconds being recognized only after a dot or a
comma, so every event id ends in the constant -000000000 rather than the
nine-digit subsecond tail the claim describes. Two events whose timestamps
fall in the same second but differ by 999999998 nanoseconds receive the
same id, and the id differs from the claimed concatenation of the
YYYYMMDDhhmmss form and the nine-digit subsecond tail. -/
theorem C7_event_id_constant_tail :
    eventID ⟨2025, 1, 1, 12, 0, 0, 1⟩ = "20250101120000-000000000"
    ∧ eventID ⟨2025, 1, 1, 12, 0, 0, 999999999⟩ = "20250101120000-000000000"
    ∧ eventID ⟨2025, 1, 1, 12, 0, 0, 1⟩ = eventID ⟨2025, 1, 1, 12, 0, 0, 999999999⟩
    ∧ (⟨2025, 1, 1, 12, 0, 0, 1⟩ : DateTime).nanos
        ≠ (⟨2025, 1, 1, 12, 0, 0, 999999999⟩ : DateTime).nanos
    ∧ claimedEventID ⟨2025, 1, 1, 12, 0, 0, 1⟩ = "20250101120000000000001"
    ∧ eventID ⟨2025, 1, 1, 12, 0, 0, 1⟩ ≠ claimedEventID ⟨2025, 1, 1, 12, 0, 0, 1⟩ :=
  ⟨rfl, rfl, rfl, by decide, rfl, by decide⟩

/-- C10: the connection is closed with no auth_response exactly when the
first frame does not parse as a JSON object; every parsed first frame is
answered by exactly one auth_response, the promised single error response
being sent for a non-auth type, an invalid auth payload, or failing
credentials. -/
theorem C10_first_frame_auth_response (tokens : List (String × ScooterConfig))
    (frame : FirstFrame) :
    (handleFirstFrame tokens frame = .closedNoResponse ↔ frame = .malformed)
    ∧ (sentAuthResponses (handleFirstFrame tokens frame)).length
        = (if frame = .malformed then 0 else 1)
    ∧ (∀ (type_ : String) (authPayload : Option AuthPayload), type_ ≠ "auth" →
        handleFirstFrame tokens (.wellFormed type_ authPayload)
          = .closedAfterResponse ⟨"error", "Expected authentication message"⟩)
    ∧ handleFirstFrame tokens (.wellFormed "auth" none)
        = .closedAfterResponse ⟨"error", "Invalid authentication message format"⟩
    ∧ (∀ (authMsg : AuthPayload) (e : AuthError),
        authenticate tokens authMsg.identifier authMsg.token = .error e →
        handleFirstFrame tokens (.wellFormed "auth" (some authMsg))
          = .closedAfterResponse ⟨"error", "Authentication failed"⟩) := by
  have hshape : ∀ (type_ : String) (authPayload : Option AuthPayload),
      handleFirstFrame tokens (.wellFormed type_ authPayload) ≠ .closedNoResponse
      ∧ (sentAuthResponses (handleFirstFrame tokens (.wellFormed type_ authPayload))).length
          = 1 := by
    intro type_ authPayload
    by_cases ht : type_ = "auth"
    · subst ht
      cases authPayload with
      | none => exact ⟨by simp [handleFirstFrame], by simp [handleFirstFrame, sentAuthResponses]⟩
      | some authMsg =>
        cases hauth : authenticate tokens authMsg.identifier authMsg.token with
        | error e =>
          exact ⟨by simp [handleFirstFrame, hauth],
                 by simp [handleFirstFrame, hauth, sentAuthResponses]⟩
        | ok u =>
          exact ⟨by simp [handleFirstFrame, hauth],
                 by simp [handleFirstFrame, hauth, sentAuthResponses]⟩
    · exact ⟨by simp [handleFirstFrame, ht], by simp [handleFirstFrame, ht, sentAuthResponses]⟩
  refine ⟨?_, ?_, ?_, ?_, ?_⟩
  · cases frame with
    | malformed => simp [handleFirstFrame]
    | wellFormed type_ authPayload =>
      simp only [iff_false, reduceCtorEq]
      exact fun h => (hshape type_ authPayload).1 h
  · cases frame with
    | malformed => simp [handleFirstFrame, sentAuthResponses]
    | wellFormed type_ authPayload =>
      simp only [reduceCtorEq, if_false]
      exact (hshape type_ authPayload).2
  · intro type_ authPayload ht
    simp [handleFirstFrame, ht]
  · simp [handleFirstFrame]
  · intro authMsg e hauth
    simp [handleFirstFrame, hauth]

theorem C10_first_frame_auth_response_witness :
    handleFirstFrame [("scooter-1", ⟨"tok", "demo"⟩)] .malformed = .closedNoResponse
    ∧ handleFirstFrame [("scooter-1", ⟨"tok", "demo"⟩)] (.wellFormed "state" none)
        = .closedAfterResponse ⟨"error", "Expected authentication message"⟩
    ∧ handleFirstFrame [("scooter-1", ⟨"tok", "demo"⟩)]
          (.wellFormed "auth" (some ⟨"scooter-1", "bad", "v1", 1⟩))
        = .closedAfterResponse ⟨"error", "Authentication failed"⟩ :=
  ⟨(C10_first_frame_auth_response [("scooter-1", ⟨"tok", "demo"⟩)] .malformed).1.mpr rfl,
   (C10_first_frame_auth_response [("scooter-1", ⟨"tok", "demo"⟩)]
      (.wellFormed "state" none)).2.2.1 "state" none (by decide),
   (C10_first_frame_auth_response [("scooter-1", ⟨"tok", "demo"⟩)]
      (.wellFormed "auth" (some ⟨"scooter-1", "bad", "v1", 1⟩))).2.2.2.2
      ⟨"scooter-1", "bad", "v1", 1⟩ (.invalidToken "scooter-1") (by rfl)⟩
